import Mathlib

/-!
Shallow embedding of the invoice subsystem (`src/lightningd/invoice.c`).

Invoices are kept in an in-memory list (`invlist`, new records at the head),
suspended callers in a FIFO queue (`invoice_waiters`, appended at the tail,
popped from the head).  Byte strings are lists of naturals; SHA-256 is an
external library routine, so every definition that hashes is parameterised
over an abstract hash function `sha`.  The persistence gateway
(`wallet_invoice_save` / `wallet_invoice_remove`) is not part of the shown
code and is modelled from the spec as a list of persisted records together
with an injected failure predicate.
-/

namespace Lightningd

/-- `enum invoice_status` from the source: `UNPAID` or `PAID`. -/
inductive InvoiceStatus
  | UNPAID
  | PAID
deriving DecidableEq, Repr

abbrev Byte := Nat

/-- A 32-byte SHA-256 value, as a byte list. -/
abbrev Hash := List Byte

/-- `struct invoice`: id, state, preimage `r`, commitment `rhash`,
amount `msatoshi`, human `label`. -/
structure Invoice where
  id : Nat
  state : InvoiceStatus
  r : List Byte
  rhash : Hash
  msatoshi : Nat
  label : String
deriving DecidableEq, Repr

/-- `struct invoice_waiter`: a suspended command, identified here by the
command's id. -/
structure InvoiceWaiter where
  cmd : Nat
deriving DecidableEq, Repr

/-- `struct invoices`: the invoice list and the FIFO waiter queue. -/
structure Invoices where
  invlist : List Invoice
  invoice_waiters : List InvoiceWaiter
deriving DecidableEq, Repr

/-- `invoices_init`: both lists start empty. -/
def invoices_init : Invoices := ⟨[], []⟩

/-- `find_inv`: first invoice in the list whose `rhash` and `state` both
match. -/
def find_inv (list : List Invoice) (rhash : Hash) (state : InvoiceStatus) :
    Option Invoice :=
  list.find? (fun i => i.rhash == rhash && i.state == state)

/-- `find_unpaid`. -/
def find_unpaid (invs : Invoices) (rhash : Hash) : Option Invoice :=
  find_inv invs.invlist rhash .UNPAID

/-- `find_paid`. -/
def find_paid (invs : Invoices) (rhash : Hash) : Option Invoice :=
  find_inv invs.invlist rhash .PAID

/-- `find_invoice_by_label`: first invoice with the given label, any state. -/
def find_invoice_by_label (list : List Invoice) (label : String) :
    Option Invoice :=
  list.find? (fun i => i.label == label)

/-- `invoice_add`: inserts `inv` at the head of the list with no uniqueness
or hash check.  (The source also allocates a stray `struct invoice` and
hashes its uninitialised preimage into it; that allocation is never linked
into any list, hence unobservable here.) -/
def invoice_add (invs : Invoices) (inv : Invoice) : Invoices :=
  { invs with invlist := inv :: invs.invlist }

/-- The read-only projection a caller receives (`tell_waiter` /
`json_add_invoices` response fields). -/
structure Projection where
  label : String
  rhash : Hash
  msatoshi : Nat
  complete : Bool
deriving DecidableEq, Repr

/-- `projectionOf i` is the response body built from invoice `i`:
label, rhash, msatoshi, and `complete = (state == PAID)`. -/
def projectionOf (i : Invoice) : Projection :=
  ⟨i.label, i.rhash, i.msatoshi, i.state == .PAID⟩

/-- A delivered notification: which command was answered, with what body. -/
structure Notification where
  cmd : Nat
  body : Projection
deriving DecidableEq, Repr

/-- `tell_waiter`: answer command `cmd` with the projection of `paid`. -/
def tell_waiter (cmd : Nat) (paid : Invoice) : Notification :=
  ⟨cmd, projectionOf paid⟩

/-- Modelled from the spec: the persistence gateway's
`save(invoice) -> bool` (`wallet_invoice_save` is declared but not defined
in the shown code).  `db` is the list of persisted records and `failSave`
the injected backend failure. -/
def wallet_invoice_save (failSave : Invoice → Bool) (db : List Invoice)
    (inv : Invoice) : List Invoice × Bool :=
  if failSave inv then (db, false) else (inv :: db, true)

/-- Modelled from the spec: the persistence gateway's
`remove(invoice) -> bool` (`wallet_invoice_remove` is declared but not
defined in the shown code). -/
def wallet_invoice_remove (failRemove : Invoice → Bool) (db : List Invoice)
    (inv : Invoice) : List Invoice × Bool :=
  if failRemove inv then (db, false) else (db.erase inv, true)

/-- The notification loop of `resolve_invoice`: pop each waiter from the
head of the queue in turn and tell it about `paid`. -/
def drain_waiters (paid : Invoice) : List InvoiceWaiter → List Notification
  | [] => []
  | w :: ws => tell_waiter w.cmd paid :: drain_waiters paid ws

/-- Result of `resolve_invoice`: the updated invoice, the (emptied) waiter
queue, the notifications sent, the gateway state and whether the save
succeeded. -/
structure ResolveResult where
  invoice : Invoice
  waiters : List InvoiceWaiter
  notifs : List Notification
  db : List Invoice
  saved : Bool
deriving Repr

/-- `resolve_invoice`: set `state = PAID`, pop-and-notify every queued
waiter, then save via the gateway (the save's result is ignored by the
source). -/
def resolve_invoice (failSave : Invoice → Bool) (db : List Invoice)
    (invoice : Invoice) (waiters : List InvoiceWaiter) : ResolveResult :=
  let paid : Invoice := { invoice with state := .PAID }
  let notifs := drain_waiters paid waiters
  let sv := wallet_invoice_save failSave db paid
  { invoice := paid, waiters := [], notifs := notifs, db := sv.1, saved := sv.2 }

/-- Modelled from the spec: `command_success` (RPC layer, not part of the
shown code) hands the response to the notified caller, whose own logic may
register further waiters while the drain is running.  `effect w` is the
list of waiters registered as a side effect of notifying `w`; new
registrations go to the tail (`list_add_tail`), pops come from the head
(`list_pop`), exactly as in `resolve_invoice`'s while loop.  `fuel` bounds
the number of iterations; the pair returned is (notifications sent, queue
left when the loop stops). -/
def drain_loop (paid : Invoice) (effect : InvoiceWaiter → List InvoiceWaiter) :
    Nat → List InvoiceWaiter → List Notification × List InvoiceWaiter
  | 0, queue => ([], queue)
  | _ + 1, [] => ([], [])
  | fuel + 1, w :: queue =>
    let rest := drain_loop paid effect fuel (queue ++ effect w)
    (tell_waiter w.cmd paid :: rest.1, rest.2)

/-- One hex digit, as in ccan's hex decoder: `0`..`9`, `a`..`f`, `A`..`F`. -/
def char_to_hex (c : Char) : Option Nat :=
  if '0' ≤ c ∧ c ≤ '9' then some (c.toNat - '0'.toNat)
  else if 'a' ≤ c ∧ c ≤ 'f' then some (c.toNat - 'a'.toNat + 10)
  else if 'A' ≤ c ∧ c ≤ 'F' then some (c.toNat - 'A'.toNat + 10)
  else none

/-- Decode hex characters two at a time into bytes; fails on an odd count
or a non-hex character. -/
def hex_decode_chars : List Char → Option (List Byte)
  | [] => some []
  | [_] => none
  | c1 :: c2 :: rest =>
    match char_to_hex c1, char_to_hex c2, hex_decode_chars rest with
    | some hi, some lo, some bs => some ((hi * 16 + lo) :: bs)
    | _, _, _ => none

/-- ccan `hex_decode(str, slen, buf, bufsize)`: succeeds exactly when the
string is valid hex for exactly `bufsize` bytes. -/
def hex_decode (s : String) (bufsize : Nat) : Option (List Byte) :=
  match hex_decode_chars s.data with
  | some bs => if bs.length = bufsize then some bs else none
  | none => none

/-- Modelled from the spec: `json_tok_u64` (RPC parsing layer, not part of
the shown code) parses a decimal unsigned 64-bit token. -/
def json_tok_u64 (s : String) : Option Nat :=
  if s.data ≠ [] ∧ s.data.all (fun c => c.isDigit) then
    let n := s.data.foldl (fun acc c => acc * 10 + (c.toNat - '0'.toNat)) 0
    if n < 2 ^ 64 then some n else none
  else none

/-- Modelled from the spec: the fixed maximum label length
(`INVOICE_MAX_LABEL_LEN` lives in a header not part of the shown code). -/
def INVOICE_MAX_LABEL_LEN : Nat := 128

/-- The parsed parameters of an `invoice` request: the `amount` and `label`
tokens (absent when `json_get_params` finds no such field) and the optional
`r` token. -/
structure CreateRequest where
  amount : Option String
  label : Option String
  r : Option String
deriving DecidableEq, Repr

/-- The `command_fail` cases of `json_invoice`, in source order. -/
inductive CreateError
  | MissingParams
  | InvalidHexR
  | DuplicateRhash
  | InvalidAmount
  | DuplicateLabel
  | LabelTooLong
  | DatabaseError
deriving DecidableEq, Repr

/-- Result of `json_invoice`: gateway state, store state, and either the
inserted invoice (whose `rhash` is the response) or the failure. -/
structure CreateResult where
  db : List Invoice
  invs : Invoices
  result : Except CreateError Invoice
deriving Repr

/-- The `r`-handling block of `json_invoice`: a supplied token must decode
to exactly 32 bytes, otherwise the generated bytes `random_r` are used. -/
def decode_r (random_r : List Byte) : Option String →
    Except CreateError (List Byte)
  | some rTok =>
    match hex_decode rTok 32 with
    | some bs => .ok bs
    | none => .error .InvalidHexR
  | none => .ok random_r

/-- The invoice record `json_invoice` builds: `id = 0`, `state = UNPAID`,
preimage `rb`, `rhash = sha rb`. -/
def mk_invoice (sha : List Byte → Hash) (rb : List Byte) (msat : Nat)
    (label : String) : Invoice :=
  ⟨0, .UNPAID, rb, sha rb, msat, label⟩

/-- `json_invoice`, check for check in source order: required params, hex
`r`, duplicate hash (either state), amount parse and positivity, duplicate
label, label length, gateway save, then head insertion. -/
def json_invoice (sha : List Byte → Hash) (random_r : List Byte)
    (failSave : Invoice → Bool) (db : List Invoice) (invs : Invoices)
    (req : CreateRequest) : CreateResult :=
  match req.amount, req.label with
  | some msatoshiTok, some labelTok =>
    match decode_r random_r req.r with
    | .error e => ⟨db, invs, .error e⟩
    | .ok rb =>
      if (find_unpaid invs (sha rb)).isSome ∨ (find_paid invs (sha rb)).isSome
      then ⟨db, invs, .error .DuplicateRhash⟩
      else
        match json_tok_u64 msatoshiTok with
        | none => ⟨db, invs, .error .InvalidAmount⟩
        | some msat =>
          if msat = 0 then ⟨db, invs, .error .InvalidAmount⟩
          else if (find_invoice_by_label invs.invlist labelTok).isSome then
            ⟨db, invs, .error .DuplicateLabel⟩
          else if labelTok.length > INVOICE_MAX_LABEL_LEN then
            ⟨db, invs, .error .LabelTooLong⟩
          else
            match wallet_invoice_save failSave db
                (mk_invoice sha rb msat labelTok) with
            | (db2, true) =>
              ⟨db2,
               { invs with
                  invlist := mk_invoice sha rb msat labelTok :: invs.invlist },
               .ok (mk_invoice sha rb msat labelTok)⟩
            | (_, false) => ⟨db, invs, .error .DatabaseError⟩
  | _, _ => ⟨db, invs, .error .MissingParams⟩

/-- `json_add_invoices`: every invoice, skipping those that do not match
the optional label filter, projected in list order. -/
def json_add_invoices (list : List Invoice) (label : Option String) :
    List Projection :=
  (list.filter (fun i =>
    match label with
    | some lbl => i.label == lbl
    | none => true)).map projectionOf

/-- `json_listinvoice`: the array response. -/
def json_listinvoice (invs : Invoices) (label : Option String) :
    List Projection :=
  json_add_invoices invs.invlist label

/-- The `command_fail` cases of `json_delinvoice`. -/
inductive DeleteError
  | InvalidArguments
  | UnknownInvoice
  | DatabaseError
deriving DecidableEq, Repr

/-- The `delinvoice` response body: label, rhash, msatoshi (no `complete`
field). -/
structure DelProjection where
  label : String
  rhash : Hash
  msatoshi : Nat
deriving DecidableEq, Repr

/-- Result of `json_delinvoice`. -/
structure DeleteResult where
  db : List Invoice
  invs : Invoices
  result : Except DeleteError DelProjection
deriving Repr

/-- `json_delinvoice`: look up by label (`UnknownInvoice` if absent),
remove from the gateway first (`DatabaseError` on failure, list untouched),
then unlink the found record and answer with its projection. -/
def json_delinvoice (failRemove : Invoice → Bool) (db : List Invoice)
    (invs : Invoices) (labelTok : Option String) : DeleteResult :=
  match labelTok with
  | none => ⟨db, invs, .error .InvalidArguments⟩
  | some label =>
    match find_invoice_by_label invs.invlist label with
    | none => ⟨db, invs, .error .UnknownInvoice⟩
    | some i =>
      match wallet_invoice_remove failRemove db i with
      | (db2, true) =>
        ⟨db2,
         { invs with invlist := invs.invlist.eraseP (fun j => j.label == label) },
         .ok ⟨i.label, i.rhash, i.msatoshi⟩⟩
      | (_, false) => ⟨db, invs, .error .DatabaseError⟩

/-- Outcome of `json_waitanyinvoice`: an immediate answer, a suspension
(waiter appended to the queue tail), or the `command_fail` for an unknown
label. -/
inductive WaitAnyOutcome
  | immediate (n : Notification)
  | suspended
  | labelNotFound
deriving DecidableEq, Repr

/-- Result of `json_waitanyinvoice`. -/
structure WaitAnyResult where
  invs : Invoices
  outcome : WaitAnyOutcome
deriving Repr

/-- The `while (i && i->state == UNPAID) i = list_next(...)` advance of
`json_waitanyinvoice`: the first PAID invoice of the list, if any. -/
def first_paid_from : List Invoice → Option Invoice
  | [] => none
  | i :: rest => if i.state == .PAID then some i else first_paid_from rest

/-- The list suffix beginning at the first invoice carrying `label`
(`find_invoice_by_label` followed by `list_next` traversal starts there). -/
def suffix_from_label (label : String) : List Invoice → Option (List Invoice)
  | [] => none
  | i :: rest =>
    if i.label == label then some (i :: rest)
    else suffix_from_label label rest

/-- `json_waitanyinvoice`: with no label, scan from the top for a PAID
invoice; with a label, fail if no invoice has it, else scan from that
invoice on.  A found invoice is answered immediately; otherwise the command
is appended to the waiter queue. -/
def json_waitanyinvoice (invs : Invoices) (cmd : Nat)
    (labelTok : Option String) : WaitAnyResult :=
  match labelTok with
  | none =>
    match first_paid_from invs.invlist with
    | some i => ⟨invs, .immediate (tell_waiter cmd i)⟩
    | none =>
      ⟨{ invs with invoice_waiters := invs.invoice_waiters ++ [⟨cmd⟩] },
       .suspended⟩
  | some label =>
    match suffix_from_label label invs.invlist with
    | none => ⟨invs, .labelNotFound⟩
    | some suf =>
      match first_paid_from suf with
      | some i => ⟨invs, .immediate (tell_waiter cmd i)⟩
      | none =>
        ⟨{ invs with invoice_waiters := invs.invoice_waiters ++ [⟨cmd⟩] },
         .suspended⟩

/-- The three store invariants of the spec: pairwise-distinct hashes,
pairwise-distinct labels, and commitment `rhash = sha r` per record. -/
def storeInvariant (sha : List Byte → Hash) (list : List Invoice) : Prop :=
  (list.map (·.rhash)).Nodup ∧ (list.map (·.label)).Nodup ∧
  ∀ i ∈ list, i.rhash = sha i.r

/-- An abstract stand-in hash for concrete evaluations: the identity on
byte lists. -/
def shaId : List Byte → Hash := fun bs => bs

/-- A gateway that never fails. -/
def noFail : Invoice → Bool := fun _ => false

/-- A gateway that always fails. -/
def allFail : Invoice → Bool := fun _ => true

/-- Concrete invoice: hash `[1]`, label `"a"`, unpaid. -/
def invA : Invoice := ⟨1, .UNPAID, [1], [1], 5, "a"⟩

/-- Concrete invoice sharing `invA`'s hash under a different label. -/
def invB : Invoice := ⟨2, .UNPAID, [1], [1], 7, "b"⟩

/-- Concrete invoice with a fresh hash and label. -/
def invC : Invoice := ⟨3, .UNPAID, [2], [2], 9, "c"⟩

/-- Concrete paid invoice, for drain scenarios. -/
def invPaid : Invoice := ⟨4, .PAID, [6], [6], 11, "p"⟩

/-- Concrete waiters for the drain scenarios. -/
def wA : InvoiceWaiter := ⟨10⟩

def wB : InvoiceWaiter := ⟨11⟩

/-- An effect under which notifying `wA` registers `wB` and nothing else
registers anything. -/
def effectAB : InvoiceWaiter → List InvoiceWaiter :=
  fun w => if w.cmd == 10 then [wB] else []

/-- Concrete create request: amount 1000, label `"L1"`, supplied hex
preimage of 32 zero bytes. -/
def req64 : CreateRequest :=
  ⟨some "1000", some "L1",
   some "0000000000000000000000000000000000000000000000000000000000000000"⟩

/-- The invoice `json_invoice` builds from `req64` under `shaId`. -/
def inv64 : Invoice := mk_invoice shaId (List.replicate 32 0) 1000 "L1"

/-- Concrete create request with generated preimage: amount 7, label
`"w"`, no `r`. -/
def reqW : CreateRequest := ⟨some "7", some "w", none⟩

/-- Concrete invoice labelled `"L"`, for conflict and delete scenarios. -/
def invL : Invoice := ⟨1, .UNPAID, [3], [3], 5, "L"⟩

/-! ## Lemmas about the drain loop -/

theorem drain_waiters_map_cmd (paid : Invoice) (ws : List InvoiceWaiter) :
    (drain_waiters paid ws).map (·.cmd) = ws.map (·.cmd) := by
  induction ws with
  | nil => rfl
  | cons w ws ih => simp [drain_waiters, tell_waiter, ih]

theorem drain_waiters_body (paid : Invoice) (ws : List InvoiceWaiter) :
    ∀ n ∈ drain_waiters paid ws, n.body = projectionOf paid := by
  induction ws with
  | nil => intro n h; cases h
  | cons w ws ih =>
    intro n h
    cases h with
    | head => rfl
    | tail _ h => exact ih n h

/-- C1: after `resolve_invoice` the invoice's state is `PAID`, the waiter
queue is empty, and every waiter queued before the call is delivered
exactly one notification carrying the resolved invoice's projection (with
`complete = true`), in FIFO registration order. -/
theorem resolve_invoice_drains_and_notifies_fifo
    (failSave : Invoice → Bool) (db : List Invoice) (inv : Invoice)
    (ws : List InvoiceWaiter) :
    (resolve_invoice failSave db inv ws).invoice.state = .PAID ∧
    (resolve_invoice failSave db inv ws).waiters = [] ∧
    (resolve_invoice failSave db inv ws).notifs.map (·.cmd) = ws.map (·.cmd) ∧
    ∀ n ∈ (resolve_invoice failSave db inv ws).notifs,
      n.body = projectionOf (resolve_invoice failSave db inv ws).invoice ∧
      n.body.complete = true := by
  refine ⟨rfl, rfl, drain_waiters_map_cmd _ ws, ?_⟩
  intro n hn
  have hb := drain_waiters_body { inv with state := .PAID } ws n hn
  refine ⟨hb, ?_⟩
  rw [hb]
  rfl

/-- C8: a second `resolve_invoice` on an already-`PAID` invoice leaves the
state `PAID` and the record unchanged, yet still drains and notifies every
waiter queued at that moment with the invoice's projection. -/
theorem resolve_invoice_idempotent_state_still_notifies
    (failSave : Invoice → Bool) (db1 db2 : List Invoice) (inv : Invoice)
    (ws1 ws2 : List InvoiceWaiter) :
    (resolve_invoice failSave db1 inv ws1).invoice.state = .PAID ∧
    (resolve_invoice failSave db2
        (resolve_invoice failSave db1 inv ws1).invoice ws2).invoice
      = (resolve_invoice failSave db1 inv ws1).invoice ∧
    (resolve_invoice failSave db2
        (resolve_invoice failSave db1 inv ws1).invoice ws2).notifs.map (·.cmd)
      = ws2.map (·.cmd) ∧
    (∀ n ∈ (resolve_invoice failSave db2
        (resolve_invoice failSave db1 inv ws1).invoice ws2).notifs,
      n.body = projectionOf (resolve_invoice failSave db1 inv ws1).invoice) ∧
    (resolve_invoice failSave db2
        (resolve_invoice failSave db1 inv ws1).invoice ws2).waiters = [] := by
  refine ⟨rfl, rfl, drain_waiters_map_cmd _ ws2, ?_, rfl⟩
  intro n hn
  exact drain_waiters_body _ ws2 n hn

/-- C1 witness: resolving `invA` with two queued waiters empties the
queue, notifies in FIFO order, and each notification carries the paid
projection. -/
theorem resolve_invoice_drains_and_notifies_fifo_witness :
    (resolve_invoice noFail [] invA [wA, wB]).invoice.state = .PAID ∧
    (resolve_invoice noFail [] invA [wA, wB]).waiters = [] ∧
    (resolve_invoice noFail [] invA [wA, wB]).notifs.map (·.cmd)
      = [wA.cmd, wB.cmd] ∧
    (tell_waiter wA.cmd { invA with state := .PAID }).body
        = projectionOf (resolve_invoice noFail [] invA [wA, wB]).invoice ∧
    (tell_waiter wA.cmd { invA with state := .PAID }).body.complete = true :=
  ⟨(resolve_invoice_drains_and_notifies_fifo noFail [] invA [wA, wB]).1,
   (resolve_invoice_drains_and_notifies_fifo noFail [] invA [wA, wB]).2.1,
   (resolve_invoice_drains_and_notifies_fifo noFail [] invA [wA, wB]).2.2.1,
   (resolve_invoice_drains_and_notifies_fifo noFail [] invA [wA, wB]).2.2.2
     (tell_waiter wA.cmd { invA with state := .PAID }) (by decide)⟩

/-- C8 witness: a second resolution of the already-paid `invPaid` keeps it
paid and still notifies the waiter queued at that moment. -/
theorem resolve_invoice_idempotent_state_still_notifies_witness :
    (resolve_invoice noFail [] invA [wA]).invoice.state = .PAID ∧
    (resolve_invoice noFail []
        (resolve_invoice noFail [] invA [wA]).invoice [wB]).invoice
      = (resolve_invoice noFail [] invA [wA]).invoice ∧
    (resolve_invoice noFail []
        (resolve_invoice noFail [] invA [wA]).invoice [wB]).notifs.map (·.cmd)
      = [wB.cmd] ∧
    (tell_waiter wB.cmd { invA with state := .PAID }).body
      = projectionOf (resolve_invoice noFail [] invA [wA]).invoice ∧
    (resolve_invoice noFail []
        (resolve_invoice noFail [] invA [wA]).invoice [wB]).waiters = [] :=
  ⟨(resolve_invoice_idempotent_state_still_notifies noFail [] [] invA
      [wA] [wB]).1,
   (resolve_invoice_idempotent_state_still_notifies noFail [] [] invA
      [wA] [wB]).2.1,
   (resolve_invoice_idempotent_state_still_notifies noFail [] [] invA
      [wA] [wB]).2.2.1,
   (resolve_invoice_idempotent_state_still_notifies noFail [] [] invA
      [wA] [wB]).2.2.2.1
     (tell_waiter wB.cmd { invA with state := .PAID }) (by decide),
   (resolve_invoice_idempotent_state_still_notifies noFail [] [] invA
      [wA] [wB]).2.2.2.2⟩

/-- C7 counterexample: with one waiter `wA` queued and a notification
effect that registers `wB` while `wA` is being told, the drain pass of
`resolve_invoice`'s loop notifies `wB` too and leaves the queue empty —
the registration made during the drain is neither skipped nor left
queued for the next resolution. -/
theorem drain_loop_includes_registration_made_during_drain :
    drain_loop invPaid effectAB 2 [wA]
      = ([tell_waiter 10 invPaid, tell_waiter 11 invPaid], []) := rfl

/-- C7 amended: a waiter registered during a drain (as a side effect of a
notified caller's own logic) IS notified in the same drain pass: the loop
keeps popping until the queue is empty, so mid-drain registrations are
drained immediately rather than deferred to the next resolution. -/
theorem drain_loop_notifies_mid_drain_registrations
    (paid : Invoice) (w v : InvoiceWaiter)
    (effect : InvoiceWaiter → List InvoiceWaiter)
    (hw : effect w = [v]) (hv : effect v = []) :
    drain_loop paid effect 2 [w]
      = ([tell_waiter w.cmd paid, tell_waiter v.cmd paid], []) := by
  simp [drain_loop, hw, hv]

/-- C7 amended, witness: the concrete two-waiter scenario. -/
theorem drain_loop_notifies_mid_drain_registrations_witness :
    drain_loop invPaid effectAB 2 [wA]
      = ([tell_waiter wA.cmd invPaid, tell_waiter wB.cmd invPaid], []) :=
  drain_loop_notifies_mid_drain_registrations invPaid wA wB effectAB rfl rfl

/-! ## Create: the commitment equation -/

/-- C2: every invoice successfully created by `json_invoice` satisfies
`payment_hash = SHA-256(preimage)`, whether the preimage was supplied as
32-byte hex in `r` or generated because `r` was omitted. -/
theorem json_invoice_hash_commits_to_preimage
    (sha : List Byte → Hash) (random_r : List Byte) (failSave : Invoice → Bool)
    (db : List Invoice) (invs : Invoices) (req : CreateRequest) (inv : Invoice)
    (h : (json_invoice sha random_r failSave db invs req).result = .ok inv) :
    inv.rhash = sha inv.r ∧
    (req.r = none → inv.r = random_r) ∧
    (∀ rt, req.r = some rt → hex_decode rt 32 = some inv.r) := by
  unfold json_invoice at h
  split at h
  · split at h
    · simp at h
    · next rb hdec =>
      split at h
      · simp at h
      · split at h
        · simp at h
        · next msat hmsat =>
          split at h
          · simp at h
          · split at h
            · simp at h
            · split at h
              · simp at h
              · split at h
                · next db2 hsave =>
                  simp only [CreateResult.result] at h
                  cases h
                  refine ⟨rfl, ?_, ?_⟩
                  · intro hr
                    rw [hr] at hdec
                    simp [decode_r] at hdec
                    simp [mk_invoice, hdec]
                  · intro rt hr
                    rw [hr] at hdec
                    simp only [decode_r] at hdec
                    cases hh : hex_decode rt 32 with
                    | none => rw [hh] at hdec; simp at hdec
                    | some bs =>
                      rw [hh] at hdec
                      simp at hdec
                      simp [mk_invoice, hdec]
                · simp at h
  · simp at h

/-- C2 witness: the concrete create `req64` (supplied 64-hex-char `r`)
succeeds and its invoice satisfies the commitment equation. -/
theorem json_invoice_hash_commits_to_preimage_witness :
    inv64.rhash = shaId inv64.r ∧
    (req64.r = none → inv64.r = [7]) ∧
    (∀ rt, req64.r = some rt → hex_decode rt 32 = some inv64.r) :=
  json_invoice_hash_commits_to_preimage shaId [7] noFail [] invoices_init
    req64 inv64 (by rfl)

/-! ## Store invariants -/

theorem eq_none_of_not_isSome {α : Type} {o : Option α}
    (h : ¬ o.isSome = true) : o = none := by
  cases o <;> simp_all

theorem rhash_fresh_of_not_found (list : List Invoice) (h : Hash)
    (h1 : find_inv list h .UNPAID = none) (h2 : find_inv list h .PAID = none) :
    ∀ i ∈ list, i.rhash ≠ h := by
  intro i hi heq
  unfold find_inv at h1 h2
  cases hs : i.state
  · have := List.find?_eq_none.mp h1 i hi
    simp [heq, hs] at this
  · have := List.find?_eq_none.mp h2 i hi
    simp [heq, hs] at this

theorem label_fresh_of_not_found (list : List Invoice) (lbl : String)
    (h : find_invoice_by_label list lbl = none) :
    ∀ i ∈ list, i.label ≠ lbl := by
  intro i hi heq
  unfold find_invoice_by_label at h
  have := List.find?_eq_none.mp h i hi
  simp [heq] at this

theorem storeInvariant_cons (sha : List Byte → Hash) (inv : Invoice)
    (l : List Invoice) (hl : storeInvariant sha l)
    (hr : inv.rhash = sha inv.r)
    (hfr : ∀ j ∈ l, j.rhash ≠ inv.rhash)
    (hfl : ∀ j ∈ l, j.label ≠ inv.label) :
    storeInvariant sha (inv :: l) := by
  obtain ⟨h1, h2, h3⟩ := hl
  refine ⟨?_, ?_, ?_⟩
  · simp only [List.map_cons, List.nodup_cons]
    refine ⟨?_, h1⟩
    intro hmem
    rcases List.mem_map.mp hmem with ⟨j, hj, hje⟩
    exact hfr j hj hje
  · simp only [List.map_cons, List.nodup_cons]
    refine ⟨?_, h2⟩
    intro hmem
    rcases List.mem_map.mp hmem with ⟨j, hj, hje⟩
    exact hfl j hj hje
  · intro i hi
    cases hi with
    | head => exact hr
    | tail _ hi => exact h3 i hi

/-- C3 counterexample: a store holding `invA` satisfies all three
invariants, yet `invoice_add` of `invB` — which shares `invA`'s
`payment_hash` — inserts it without any check, breaking hash
uniqueness. -/
theorem invoice_add_breaks_hash_uniqueness :
    storeInvariant shaId [invA] ∧
    ¬ storeInvariant shaId (invoice_add ⟨[invA], []⟩ invB).invlist := by
  constructor
  · exact ⟨by decide, by decide, by decide⟩
  · intro hcontra
    exact absurd hcontra.1 (by decide)

/-- C3 amended: the create handler preserves the three store invariants on
every request; `invoice_add`, by contrast, inserts unconditionally and
preserves them only when the added invoice's hash and label are fresh and
its hash equals the hash of its preimage. -/
theorem store_insertion_invariant_preservation :
    (∀ (sha : List Byte → Hash) (random_r : List Byte)
       (failSave : Invoice → Bool) (db : List Invoice) (invs : Invoices)
       (req : CreateRequest),
       storeInvariant sha invs.invlist →
       storeInvariant sha
         (json_invoice sha random_r failSave db invs req).invs.invlist) ∧
    (∀ (sha : List Byte → Hash) (invs : Invoices) (inv : Invoice),
       storeInvariant sha invs.invlist →
       inv.rhash = sha inv.r →
       (∀ j ∈ invs.invlist, j.rhash ≠ inv.rhash) →
       (∀ j ∈ invs.invlist, j.label ≠ inv.label) →
       storeInvariant sha (invoice_add invs inv).invlist) := by
  constructor
  · intro sha random_r failSave db invs req hinv
    unfold json_invoice
    split
    · split
      · exact hinv
      · next rb hdec =>
        split
        · exact hinv
        · next hdup =>
          split
          · exact hinv
          · next msat hmsat =>
            split
            · exact hinv
            · split
              · exact hinv
              · next hlbl =>
                split
                · exact hinv
                · split
                  · next db2 hsave =>
                    have hdup12 := not_or.mp hdup
                    have hdup1 := eq_none_of_not_isSome hdup12.1
                    have hdup2 := eq_none_of_not_isSome hdup12.2
                    have hlbl0 := eq_none_of_not_isSome hlbl
                    exact storeInvariant_cons sha _ invs.invlist hinv rfl
                      (rhash_fresh_of_not_found invs.invlist (sha rb)
                        hdup1 hdup2)
                      (label_fresh_of_not_found invs.invlist _ hlbl0)
                  · exact hinv
    · exact hinv
  · intro sha invs inv hinv hr hfr hfl
    exact storeInvariant_cons sha inv invs.invlist hinv hr hfr hfl

/-- C3 amended, witness: a concrete create into a one-invoice store, and a
concrete `invoice_add` of a fresh invoice. -/
theorem store_insertion_invariant_preservation_witness :
    storeInvariant shaId
      (json_invoice shaId [4] noFail [] ⟨[invA], []⟩ reqW).invs.invlist ∧
    storeInvariant shaId (invoice_add ⟨[invA], []⟩ invC).invlist :=
  ⟨store_insertion_invariant_preservation.1 shaId [4] noFail [] ⟨[invA], []⟩
     reqW ⟨by decide, by decide, by decide⟩,
   store_insertion_invariant_preservation.2 shaId ⟨[invA], []⟩ invC
     ⟨by decide, by decide, by decide⟩ (by decide) (by decide) (by decide)⟩

/-! ## Create: persistence ordering and conflicts -/

/-- C4: for a create request that passes validation and both uniqueness
checks, the record is saved through the gateway before any in-memory
insertion: a failed save yields the database error with the store exactly
as before, and a successful save inserts the record at the head with the
same record now persisted. -/
theorem json_invoice_persists_before_insert
    (sha : List Byte → Hash) (random_r : List Byte) (failSave : Invoice → Bool)
    (db : List Invoice) (invs : Invoices)
    (msatoshiTok labelTok : String) (rTok : Option String)
    (rb : List Byte) (msat : Nat)
    (hdec : decode_r random_r rTok = .ok rb)
    (hh1 : find_unpaid invs (sha rb) = none)
    (hh2 : find_paid invs (sha rb) = none)
    (hamt : json_tok_u64 msatoshiTok = some msat)
    (hpos : msat ≠ 0)
    (hlbl : find_invoice_by_label invs.invlist labelTok = none)
    (hlen : ¬ labelTok.length > INVOICE_MAX_LABEL_LEN) :
    (failSave (mk_invoice sha rb msat labelTok) = true →
       json_invoice sha random_r failSave db invs
           ⟨some msatoshiTok, some labelTok, rTok⟩
         = ⟨db, invs, .error .DatabaseError⟩) ∧
    (failSave (mk_invoice sha rb msat labelTok) = false →
       json_invoice sha random_r failSave db invs
           ⟨some msatoshiTok, some labelTok, rTok⟩
         = ⟨mk_invoice sha rb msat labelTok :: db,
            { invs with
               invlist := mk_invoice sha rb msat labelTok :: invs.invlist },
            .ok (mk_invoice sha rb msat labelTok)⟩) := by
  constructor <;> intro hf <;>
    simp [json_invoice, hdec, hh1, hh2, hamt, hpos, hlbl, hlen,
      wallet_invoice_save, hf]

/-- C4 witness: with a failing gateway the concrete create aborts with the
database error and an untouched store; with a working gateway it persists
and inserts. -/
theorem json_invoice_persists_before_insert_witness :
    (json_invoice shaId [4] allFail [] invoices_init ⟨some "7", some "w", none⟩
       = ⟨[], invoices_init, .error .DatabaseError⟩) ∧
    (json_invoice shaId [4] noFail [] invoices_init ⟨some "7", some "w", none⟩
       = ⟨[mk_invoice shaId [4] 7 "w"], ⟨[mk_invoice shaId [4] 7 "w"], []⟩,
          .ok (mk_invoice shaId [4] 7 "w")⟩) :=
  ⟨(json_invoice_persists_before_insert shaId [4] allFail [] invoices_init
      "7" "w" none [4] 7 rfl rfl rfl (by decide) (by decide) rfl
      (by decide)).1 rfl,
   (json_invoice_persists_before_insert shaId [4] noFail [] invoices_init
      "7" "w" none [4] 7 rfl rfl rfl (by decide) (by decide) rfl
      (by decide)).2 rfl⟩

/-- C5 counterexample: the store holds an invoice labelled `"L"`; a create
request reusing label `"L"` but carrying the invalid amount `"0"` is
rejected with the amount validation error, not a conflict error — the
label-collision check only runs after amount validation. -/
theorem create_label_conflict_masked_by_invalid_amount :
    (find_invoice_by_label [invL] "L").isSome = true ∧
    (json_invoice shaId [2] noFail [] ⟨[invL], []⟩
        ⟨some "0", some "L", none⟩).result
      = .error .InvalidAmount :=
  ⟨rfl, rfl⟩

/-- C5 amended: a create whose computed hash collides with any existing
invoice (either state) is rejected with the duplicate-hash conflict — this
check precedes amount validation — and a create whose label collides is
rejected with the duplicate-label conflict provided its amount is valid
(an invalid amount is reported first); in both cases the gateway and the
store are unchanged. -/
theorem create_conflict_rejection
    (sha : List Byte → Hash) (random_r : List Byte) (failSave : Invoice → Bool)
    (db : List Invoice) (invs : Invoices)
    (msatoshiTok labelTok : String) (rTok : Option String) (rb : List Byte)
    (hdec : decode_r random_r rTok = .ok rb)
    (hconf : ((find_unpaid invs (sha rb)).isSome = true ∨
              (find_paid invs (sha rb)).isSome = true) ∨
             (find_unpaid invs (sha rb) = none ∧
              find_paid invs (sha rb) = none ∧
              (∃ msat, json_tok_u64 msatoshiTok = some msat ∧ msat ≠ 0) ∧
              (find_invoice_by_label invs.invlist labelTok).isSome = true)) :
    ((json_invoice sha random_r failSave db invs
        ⟨some msatoshiTok, some labelTok, rTok⟩).result
        = .error .DuplicateRhash ∨
     (json_invoice sha random_r failSave db invs
        ⟨some msatoshiTok, some labelTok, rTok⟩).result
        = .error .DuplicateLabel) ∧
    (json_invoice sha random_r failSave db invs
       ⟨some msatoshiTok, some labelTok, rTok⟩).db = db ∧
    (json_invoice sha random_r failSave db invs
       ⟨some msatoshiTok, some labelTok, rTok⟩).invs = invs := by
  rcases hconf with hdup | ⟨hh1, hh2, ⟨msat, hamt, hpos⟩, hlbl⟩
  · have : json_invoice sha random_r failSave db invs
        ⟨some msatoshiTok, some labelTok, rTok⟩
        = ⟨db, invs, .error .DuplicateRhash⟩ := by
      simp [json_invoice, hdec, hdup]
    rw [this]
    exact ⟨Or.inl rfl, rfl, rfl⟩
  · have : json_invoice sha random_r failSave db invs
        ⟨some msatoshiTok, some labelTok, rTok⟩
        = ⟨db, invs, .error .DuplicateLabel⟩ := by
      simp [json_invoice, hdec, hh1, hh2, hamt, hpos, hlbl]
    rw [this]
    exact ⟨Or.inr rfl, rfl, rfl⟩

/-- C5 amended, witness: a concrete create whose generated preimage hashes
to `invA`'s existing payment hash is rejected as a duplicate with nothing
mutated. -/
theorem create_conflict_rejection_witness :
    ((json_invoice shaId [1] noFail [] ⟨[invA], []⟩
        ⟨some "5", some "z", none⟩).result = .error .DuplicateRhash ∨
     (json_invoice shaId [1] noFail [] ⟨[invA], []⟩
        ⟨some "5", some "z", none⟩).result = .error .DuplicateLabel) ∧
    (json_invoice shaId [1] noFail [] ⟨[invA], []⟩
       ⟨some "5", some "z", none⟩).db = [] ∧
    (json_invoice shaId [1] noFail [] ⟨[invA], []⟩
       ⟨some "5", some "z", none⟩).invs = ⟨[invA], []⟩ :=
  create_conflict_rejection shaId [1] noFail [] ⟨[invA], []⟩ "5" "z" none [1]
    rfl (Or.inl (Or.inl (by decide)))

/-! ## Delete -/

theorem eraseP_label_free (lbl : String) :
    ∀ (l : List Invoice), (l.map (·.label)).Nodup →
      (∃ i ∈ l, i.label = lbl) →
      ∀ j ∈ l.eraseP (fun j => j.label == lbl), j.label ≠ lbl := by
  intro l
  induction l with
  | nil =>
    intro _ hex
    rcases hex with ⟨i, hi, _⟩
    cases hi
  | cons a l ih =>
    intro hnd hex j hj
    rw [List.map_cons] at hnd
    have hnd' := List.nodup_cons.mp hnd
    by_cases ha : a.label = lbl
    · rw [List.eraseP_cons_of_pos (by simp [ha])] at hj
      intro hjl
      have hmem : lbl ∈ l.map (·.label) := List.mem_map.mpr ⟨j, hj, hjl⟩
      exact hnd'.1 (by rwa [ha])
    · rw [List.eraseP_cons_of_neg (by simp [ha])] at hj
      cases hj with
      | head => exact ha
      | tail _ hj =>
        have hex' : ∃ i ∈ l, i.label = lbl := by
          rcases hex with ⟨i, hi, hil⟩
          cases hi with
          | head => exact absurd hil ha
          | tail _ hi => exact ⟨i, hi, hil⟩
        exact ih hnd'.2 hex' j hj

/-- C6: `delinvoice` on an absent label fails with the unknown-invoice
error leaving everything unchanged; on a present label the gateway removal
runs first, a gateway failure leaves the record in the store, and a
successful removal unlinks the record, answers with its projection, and —
when labels are unique — a subsequent `listinvoice` never returns it. -/
theorem json_delinvoice_contract
    (failRemove : Invoice → Bool) (db : List Invoice) (invs : Invoices)
    (label : String) :
    (find_invoice_by_label invs.invlist label = none →
       json_delinvoice failRemove db invs (some label)
         = ⟨db, invs, .error .UnknownInvoice⟩) ∧
    (∀ i, find_invoice_by_label invs.invlist label = some i →
       (failRemove i = true →
          json_delinvoice failRemove db invs (some label)
            = ⟨db, invs, .error .DatabaseError⟩ ∧ i ∈ invs.invlist) ∧
       (failRemove i = false →
          json_delinvoice failRemove db invs (some label)
            = ⟨db.erase i,
               { invs with
                  invlist := invs.invlist.eraseP (fun j => j.label == label) },
               .ok ⟨i.label, i.rhash, i.msatoshi⟩⟩ ∧
          ((invs.invlist.map (·.label)).Nodup →
            ∀ p ∈ json_listinvoice
                { invs with
                   invlist :=
                     invs.invlist.eraseP (fun j => j.label == label) } none,
              p.label ≠ i.label))) := by
  constructor
  · intro h
    simp [json_delinvoice, h]
  · intro i hfind
    have hmem : i ∈ invs.invlist := by
      unfold find_invoice_by_label at hfind
      exact List.mem_of_find?_eq_some hfind
    have hlab : i.label = label := by
      unfold find_invoice_by_label at hfind
      have := List.find?_some hfind
      simpa using this
    constructor
    · intro hf
      refine ⟨?_, hmem⟩
      simp [json_delinvoice, hfind, wallet_invoice_remove, hf]
    · intro hf
      constructor
      · simp [json_delinvoice, hfind, wallet_invoice_remove, hf]
      · intro hnd p hp
        simp only [json_listinvoice, json_add_invoices, List.filter_true,
          List.mem_map] at hp
        rcases hp with ⟨j, hj, hpe⟩
        have hjl : j.label ≠ label :=
          eraseP_label_free label invs.invlist hnd ⟨i, hmem, hlab⟩ j
            (by simpa using hj)
        rw [← hpe, hlab]
        exact hjl

/-- C6 witness: deleting the present label `"L"` from a one-invoice store
succeeds, returns the record's projection, and a subsequent list is
empty of that label. -/
theorem json_delinvoice_contract_witness :
    json_delinvoice noFail [invL] ⟨[invL], []⟩ (some "L")
      = ⟨([invL] : List Invoice).erase invL,
         ⟨([invL] : List Invoice).eraseP (fun j => j.label == "L"), []⟩,
         .ok ⟨invL.label, invL.rhash, invL.msatoshi⟩⟩ ∧
    ∀ p ∈ json_listinvoice
        ⟨([invL] : List Invoice).eraseP (fun j => j.label == "L"), []⟩ none,
      p.label ≠ invL.label := by
  have h := ((json_delinvoice_contract noFail [invL] ⟨[invL], []⟩ "L").2
    invL rfl).2 rfl
  exact ⟨h.1, h.2 (by decide)⟩

/-! ## Wait-any -/

theorem suffix_from_label_eq_none_iff (lbl : String) (l : List Invoice) :
    suffix_from_label lbl l = none ↔ find_invoice_by_label l lbl = none := by
  induction l with
  | nil => simp [suffix_from_label, find_invoice_by_label]
  | cons a l ih =>
    by_cases h : a.label = lbl
    · simp [suffix_from_label, find_invoice_by_label, List.find?_cons, h]
    · simp only [suffix_from_label, find_invoice_by_label, List.find?_cons]
      rw [if_neg (by simp [h])]
      have hb : (a.label == lbl) = false := by simp [h]
      rw [hb]
      exact ih

/-- C9 counterexample: `waitanyinvoice` with the label `"x"` against an
empty store fails with the label-not-found error — the operation does have
a failure condition. -/
theorem waitany_unknown_label_is_an_error :
    (json_waitanyinvoice invoices_init 0 (some "x")).outcome
        = WaitAnyOutcome.labelNotFound ∧
    (json_waitanyinvoice invoices_init 0 (some "x")).invs = invoices_init :=
  ⟨rfl, rfl⟩

/-- C9 amended: `waitanyinvoice` fails exactly when a label is supplied
and no invoice carries it; with no label, or with a label some invoice
carries, it either answers immediately with a paid invoice's projection or
suspends the caller. -/
theorem waitany_fails_only_on_unknown_label (invs : Invoices) (cmd : Nat)
    (labelTok : Option String) :
    (json_waitanyinvoice invs cmd labelTok).outcome
        = WaitAnyOutcome.labelNotFound ↔
      ∃ lbl, labelTok = some lbl ∧
        find_invoice_by_label invs.invlist lbl = none := by
  cases labelTok with
  | none =>
    constructor
    · intro h
      cases hp : first_paid_from invs.invlist <;>
        simp [json_waitanyinvoice, hp] at h
    · rintro ⟨lbl, h, -⟩
      cases h
  | some lbl =>
    cases hs : suffix_from_label lbl invs.invlist with
    | none =>
      simp only [json_waitanyinvoice, hs]
      constructor
      · intro _
        exact ⟨lbl, rfl, (suffix_from_label_eq_none_iff lbl invs.invlist).mp hs⟩
      · intro _
        trivial
    | some suf =>
      constructor
      · intro h
        cases hp : first_paid_from suf <;>
          simp [json_waitanyinvoice, hs, hp] at h
      · rintro ⟨lbl2, h, hfind⟩
        cases h
        have : suffix_from_label lbl invs.invlist = none :=
          (suffix_from_label_eq_none_iff lbl invs.invlist).mpr hfind
        rw [this] at hs
        cases hs

/-- C9 amended, witness: the failure characterization applied to the
unknown label `"x"` on the empty store. -/
theorem waitany_fails_only_on_unknown_label_witness :
    (json_waitanyinvoice invoices_init 1 (some "x")).outcome
      = WaitAnyOutcome.labelNotFound :=
  (waitany_fails_only_on_unknown_label invoices_init 1 (some "x")).mpr
    ⟨"x", rfl, rfl⟩

/-! ## Create: validation -/

/-- C10 counterexample: a create request with a valid amount and the EMPTY
label `""` is accepted — `json_invoice` performs no non-emptiness check on
the label, so no `ValidationError` is raised and the invoice is created. -/
theorem create_accepts_empty_label :
    (json_invoice shaId [4] noFail [] invoices_init
        ⟨some "7", some "", none⟩).result
      = .ok (mk_invoice shaId [4] 7 "") ∧
    (json_invoice shaId [4] noFail [] invoices_init
        ⟨some "7", some "", none⟩).invs.invlist
      = [mk_invoice shaId [4] 7 ""] :=
  ⟨rfl, rfl⟩

/-- C10 amended: create validates that amount and label are present, that
the amount parses as an unsigned 64-bit number and is strictly positive,
that the label is within the fixed maximum length, and that `r`, if
supplied, is hex for exactly 32 bytes; each violation is rejected with the
corresponding error and the store and gateway are untouched.  An EMPTY
label, however, is accepted: a request that passes the other checks with
label `""` creates the invoice. -/
theorem create_validation_behaviour :
    (∀ (sha : List Byte → Hash) (random_r : List Byte)
       (failSave : Invoice → Bool) (db : List Invoice) (invs : Invoices)
       (lblTok : Option String) (rTok : Option String),
       json_invoice sha random_r failSave db invs ⟨none, lblTok, rTok⟩
         = ⟨db, invs, .error .MissingParams⟩) ∧
    (∀ (sha : List Byte → Hash) (random_r : List Byte)
       (failSave : Invoice → Bool) (db : List Invoice) (invs : Invoices)
       (amtTok : String) (rTok : Option String),
       json_invoice sha random_r failSave db invs ⟨some amtTok, none, rTok⟩
         = ⟨db, invs, .error .MissingParams⟩) ∧
    (∀ (sha : List Byte → Hash) (random_r : List Byte)
       (failSave : Invoice → Bool) (db : List Invoice) (invs : Invoices)
       (amtTok lblTok rTok : String),
       hex_decode rTok 32 = none →
       json_invoice sha random_r failSave db invs
           ⟨some amtTok, some lblTok, some rTok⟩
         = ⟨db, invs, .error .InvalidHexR⟩) ∧
    (∀ (sha : List Byte → Hash) (random_r : List Byte)
       (failSave : Invoice → Bool) (db : List Invoice) (invs : Invoices)
       (amtTok lblTok : String) (rTok : Option String) (rb : List Byte),
       decode_r random_r rTok = .ok rb →
       find_unpaid invs (sha rb) = none → find_paid invs (sha rb) = none →
       (json_tok_u64 amtTok = none ∨ json_tok_u64 amtTok = some 0) →
       json_invoice sha random_r failSave db invs
           ⟨some amtTok, some lblTok, rTok⟩
         = ⟨db, invs, .error .InvalidAmount⟩) ∧
    (∀ (sha : List Byte → Hash) (random_r : List Byte)
       (failSave : Invoice → Bool) (db : List Invoice) (invs : Invoices)
       (amtTok lblTok : String) (rTok : Option String) (rb : List Byte)
       (msat : Nat),
       decode_r random_r rTok = .ok rb →
       find_unpaid invs (sha rb) = none → find_paid invs (sha rb) = none →
       json_tok_u64 amtTok = some msat → msat ≠ 0 →
       find_invoice_by_label invs.invlist lblTok = none →
       lblTok.length > INVOICE_MAX_LABEL_LEN →
       json_invoice sha random_r failSave db invs
           ⟨some amtTok, some lblTok, rTok⟩
         = ⟨db, invs, .error .LabelTooLong⟩) ∧
    (∀ (sha : List Byte → Hash) (random_r : List Byte)
       (failSave : Invoice → Bool) (db : List Invoice) (invs : Invoices)
       (amtTok : String) (rTok : Option String) (rb : List Byte) (msat : Nat),
       decode_r random_r rTok = .ok rb →
       find_unpaid invs (sha rb) = none → find_paid invs (sha rb) = none →
       json_tok_u64 amtTok = some msat → msat ≠ 0 →
       find_invoice_by_label invs.invlist "" = none →
       failSave (mk_invoice sha rb msat "") = false →
       (json_invoice sha random_r failSave db invs
           ⟨some amtTok, some "", rTok⟩).result
         = .ok (mk_invoice sha rb msat "")) := by
  refine ⟨?_, ?_, ?_, ?_, ?_, ?_⟩
  · intro sha random_r failSave db invs lblTok rTok
    cases lblTok <;> rfl
  · intro sha random_r failSave db invs amtTok rTok
    rfl
  · intro sha random_r failSave db invs amtTok lblTok rTok hhex
    simp [json_invoice, decode_r, hhex]
  · intro sha random_r failSave db invs amtTok lblTok rTok rb hdec hh1 hh2 hamt
    rcases hamt with hamt | hamt <;> simp [json_invoice, hdec, hh1, hh2, hamt]
  · intro sha random_r failSave db invs amtTok lblTok rTok rb msat hdec hh1 hh2
      hamt hpos hlbl hlen
    simp [json_invoice, hdec, hh1, hh2, hamt, hpos, hlbl, hlen]
  · intro sha random_r failSave db invs amtTok rTok rb msat hdec hh1 hh2 hamt
      hpos hlbl hf
    simp [json_invoice, hdec, hh1, hh2, hamt, hpos, hlbl, wallet_invoice_save,
      hf, INVOICE_MAX_LABEL_LEN]

/-- C10 amended, witness: a missing amount, a malformed `r`, a zero
amount, and an accepted empty label, all at concrete inputs. -/
theorem create_validation_behaviour_witness :
    json_invoice shaId [4] noFail [] invoices_init ⟨none, some "w", none⟩
      = ⟨[], invoices_init, .error .MissingParams⟩ ∧
    json_invoice shaId [4] noFail [] invoices_init
        ⟨some "7", some "w", some "zz"⟩
      = ⟨[], invoices_init, .error .InvalidHexR⟩ ∧
    json_invoice shaId [4] noFail [] invoices_init ⟨some "0", some "w", none⟩
      = ⟨[], invoices_init, .error .InvalidAmount⟩ ∧
    (json_invoice shaId [4] noFail [] invoices_init
        ⟨some "7", some "", none⟩).result
      = .ok (mk_invoice shaId [4] 7 "") :=
  ⟨create_validation_behaviour.1 shaId [4] noFail [] invoices_init
     (some "w") none,
   create_validation_behaviour.2.2.1 shaId [4] noFail [] invoices_init
     "7" "w" "zz" (by decide),
   create_validation_behaviour.2.2.2.1 shaId [4] noFail [] invoices_init
     "0" "w" none [4] rfl rfl rfl (Or.inr (by decide)),
   create_validation_behaviour.2.2.2.2.2 shaId [4] noFail [] invoices_init
     "7" none [4] 7 rfl rfl rfl (by decide) (by decide) rfl rfl⟩

end Lightningd
